import Mathlib

/-!
Verification of the AuraVerse catalog core against its specification.

This file shallowly embeds the non-presentation logic of the repository:
  * `JsonHandler.py` — JSON metadata extraction (`extract_metadata`),
  * `main.py` — classification (`mime_to_category`), sanitization,
    fingerprinting (`sha256_file` over `hashlib.sha256`), and the ingestion
    pipeline (`process_and_store_file`),
  * `Search_UI.py` — the two-tier retrieval engine (`db_search`, `fs_search`,
    `retrieve_data`) and `strip_leading_timestamp`,
  * `Creating_Storage.py` — storage provisioning (`setup_user_storage`) and
    the `upgrade_db` migration from `main.py`.

Python strings are modelled as Lean `String` (ASCII-faithful: `lower()`,
`\w` and whitespace stripping are modelled on ASCII, which covers every
string the specification and claims mention).  Files are byte lists
(`List Nat`, each entry < 256 where it matters).  External library calls
(`mimetypes.guess_type`, `json.load`) are universally quantified parameters
of the model; repository code is embedded concretely.
-/

namespace AuraVerse

/-! ## String helpers (Python `str.join`, `in`, `os.path` pieces) -/

/-- Python `sep.join(xs)`. -/
def joinWith (sep : String) : List String → String
  | [] => ""
  | [x] => x
  | x :: xs => x ++ sep ++ joinWith sep xs

/-- Python `" ".join(xs)`. -/
def joinSp (xs : List String) : String := joinWith " " xs

/-- Does `hay` start with `needle`? -/
def listStarts : List Char → List Char → Bool
  | [], _ => true
  | _ :: _, [] => false
  | a :: as, b :: bs => a = b && listStarts as bs

/-- Is `needle` a contiguous sublist of `hay`? -/
def listInfix (needle : List Char) : List Char → Bool
  | [] => listStarts needle []
  | b :: bs => listStarts needle (b :: bs) || listInfix needle bs

/-- Python `needle in hay` on strings (contiguous substring test). -/
def strContains (hay needle : String) : Bool :=
  listInfix needle.data hay.data

/-- ASCII lowercase of one character, as an explicit table. -/
def asciiLower (c : Char) : Char :=
  if c = 'A' then 'a' else if c = 'B' then 'b' else if c = 'C' then 'c'
  else if c = 'D' then 'd' else if c = 'E' then 'e' else if c = 'F' then 'f'
  else if c = 'G' then 'g' else if c = 'H' then 'h' else if c = 'I' then 'i'
  else if c = 'J' then 'j' else if c = 'K' then 'k' else if c = 'L' then 'l'
  else if c = 'M' then 'm' else if c = 'N' then 'n' else if c = 'O' then 'o'
  else if c = 'P' then 'p' else if c = 'Q' then 'q' else if c = 'R' then 'r'
  else if c = 'S' then 's' else if c = 'T' then 't' else if c = 'U' then 'u'
  else if c = 'V' then 'v' else if c = 'W' then 'w' else if c = 'X' then 'x'
  else if c = 'Y' then 'y' else if c = 'Z' then 'z' else c

/-- Python `s.lower()` (ASCII). -/
def pyLower (s : String) : String := String.mk (s.data.map asciiLower)

/-- Python `s.strip()`: whitespace removed from both ends. -/
def pyStrip (s : String) : String :=
  String.mk (((s.data.dropWhile Char.isWhitespace).reverse.dropWhile Char.isWhitespace).reverse)

/-- Python `s.startswith(pat)`. -/
def pyStartsWith (s pat : String) : Bool := listStarts pat.data s.data

/-- Python `s.endswith(pat)`. -/
def pyEndsWith (s pat : String) : Bool := listStarts pat.data.reverse s.data.reverse

/-- Final path component: `Path(p).name` / `os.path.basename` — everything
after the last `/`. -/
def basename (p : String) : String :=
  String.mk (p.data.reverse.takeWhile (fun c => c ≠ '/')).reverse

/-- Python `os.path.dirname p` — everything before the last `/` (for the
`<dir>/<file>` shapes this program builds; the filesystem-root corner
cases of `os.path` never arise here). -/
def dirname (p : String) : String :=
  String.mk ((p.data.reverse.dropWhile (fun c => c ≠ '/')).drop 1).reverse

/-- Index of the last `'.'` in a character list, if any. -/
def lastDotIdx (l : List Char) : Option Nat :=
  match l.reverse.findIdx? (fun c => c = '.') with
  | some j => some (l.length - 1 - j)
  | none => none

/-- `Path(p).suffix`: the final component's extension including the dot,
empty for names with no dot, a leading dot only, or a trailing dot. -/
def pathSuffix (p : String) : String :=
  let name := (basename p).data
  match lastDotIdx name with
  | some i => if 0 < i ∧ i < name.length - 1 then String.mk (name.drop i) else ""
  | none => ""

/-! ## `JsonHandler.extract_metadata` -/

/-- Parsed JSON values as `json.load` produces them.  Numbers are modelled
as integers (the only numbers the specification exercises). -/
inductive JsonVal where
  | jnull : JsonVal
  | jbool : Bool → JsonVal
  | jint : Int → JsonVal
  | jstr : String → JsonVal
  | jarr : List JsonVal → JsonVal
  | jobj : List (String × JsonVal) → JsonVal

/-- Python `isinstance(v, (str, int, float, bool))` — the scalar test used
for `json_preview`. -/
def isScalar : JsonVal → Bool
  | .jbool _ => true
  | .jint _ => true
  | .jstr _ => true
  | _ => false

/-- Python `str(obj)` for the non-container values reached by `flatten`. -/
def pyStr : JsonVal → String
  | .jnull => "None"
  | .jbool true => "True"
  | .jbool false => "False"
  | .jint n => toString n
  | .jstr s => s
  | .jarr _ => ""
  | .jobj _ => ""

mutual

/-- The inner `flatten` of `extract_metadata`: objects and arrays become the
space-join of their members' flattenings, and anything else becomes
`str(obj)`. -/
def flatten : JsonVal → String
  | .jobj fs => joinSp (flattenFields fs)
  | .jarr xs => joinSp (flattenList xs)
  | v => pyStr v

def flattenList : List JsonVal → List String
  | [] => []
  | x :: xs => flatten x :: flattenList xs

def flattenFields : List (String × JsonVal) → List String
  | [] => []
  | kv :: fs => flatten kv.2 :: flattenFields fs

end

/-- JSON escaping of `json.dumps` for the characters exercised here. -/
def jsonEscapeChar (c : Char) : String :=
  if c = '"' then "\\\""
  else if c = '\\' then "\\\\"
  else if c = '\n' then "\\n"
  else if c = '\t' then "\\t"
  else if c = '\r' then "\\r"
  else String.mk [c]

def jsonEscape (s : String) : String :=
  joinWith "" (s.data.map jsonEscapeChar)

/-- `json.dumps` of a scalar value. -/
def dumpScalar : JsonVal → String
  | .jbool true => "true"
  | .jbool false => "false"
  | .jint n => toString n
  | .jstr s => "\"" ++ jsonEscape s ++ "\""
  | .jnull => "null"
  | .jarr _ => ""
  | .jobj _ => ""

/-- `json.dumps` of the preview dict (default separators `", "` / `": "`). -/
def dumps (fields : List (String × JsonVal)) : String :=
  "\x7b" ++
    joinWith ", " (fields.map (fun kv => "\"" ++ jsonEscape kv.1 ++ "\": " ++ dumpScalar kv.2)) ++
  "\x7d"

/-- The preview loop of `extract_metadata`: walk the items in order, keep
scalar fields, and stop as soon as five have been collected. -/
def previewLoop : List (String × JsonVal) → List (String × JsonVal) → List (String × JsonVal)
  | [], acc => acc
  | kv :: rest, acc =>
    let acc' := if isScalar kv.2 then acc ++ [kv] else acc
    if 5 ≤ acc'.length then acc' else previewLoop rest acc'

/-- The metadata triple produced by `extract_metadata`. -/
structure JsonMeta where
  json_keys : String
  json_preview : String
  json_search_text : String
deriving DecidableEq, Repr

/-- `JsonHandler.extract_metadata`. -/
def extract_metadata : JsonVal → JsonMeta
  | .jobj fields =>
    let keys := joinWith "," (fields.map Prod.fst)
    let preview := previewLoop fields []
    ⟨keys,
     if preview.isEmpty then "" else dumps preview,
     pyLower (flatten (.jobj fields))⟩
  | _ => ⟨"", "", ""⟩

/-! ## SHA-256 (`hashlib.sha256(...).hexdigest()` as used by `sha256_file`)

32-bit words are `Nat` reduced mod `2^32`; messages are byte lists. -/

def w32 (n : Nat) : Nat := n % 4294967296

def wadd (a b : Nat) : Nat := (a + b) % 4294967296

def wxor (a b : Nat) : Nat := Nat.xor a b

def wand (a b : Nat) : Nat := Nat.land a b

def wnot (a : Nat) : Nat := Nat.xor (w32 a) 4294967295

def rotr (x n : Nat) : Nat :=
  w32 (Nat.lor (Nat.shiftRight (w32 x) n) (Nat.shiftLeft (w32 x) (32 - n)))

def ch (x y z : Nat) : Nat := wxor (wand x y) (wand (wnot x) z)

def maj (x y z : Nat) : Nat := wxor (wxor (wand x y) (wand x z)) (wand y z)

def bsig0 (x : Nat) : Nat := wxor (wxor (rotr x 2) (rotr x 13)) (rotr x 22)

def bsig1 (x : Nat) : Nat := wxor (wxor (rotr x 6) (rotr x 11)) (rotr x 25)

def ssig0 (x : Nat) : Nat := wxor (wxor (rotr x 7) (rotr x 18)) (Nat.shiftRight (w32 x) 3)

def ssig1 (x : Nat) : Nat := wxor (wxor (rotr x 17) (rotr x 19)) (Nat.shiftRight (w32 x) 10)

/-- The 64 SHA-256 round constants of FIPS 180-4 (decimal). -/
def K64 : List Nat :=
  [1116352408, 1899447441, 3049323471, 3921009573, 961987163, 1508970993,
   2453635748, 2870763221, 3624381080, 310598401, 607225278, 1426881987,
   1925078388, 2162078206, 2614888103, 3248222580, 3835390401, 4022224774,
   264347078, 604807628, 770255983, 1249150122, 1555081692, 1996064986,
   2554220882, 2821834349, 2952996808, 3210313671, 3336571891, 3584528711,
   113926993, 338241895, 666307205, 773529912, 1294757372, 1396182291,
   1695183700, 1986661051, 2177026350, 2456956037, 2730485921, 2820302411,
   3259730800, 3345764771, 3516065817, 3600352804, 4094571909, 275423344,
   430227734, 506948616, 659060556, 883997877, 958139571, 1322822218,
   1537002063, 1747873779, 1955562222, 2024104815, 2227730452, 2361852424,
   2428436474, 2756734187, 3204031479, 3329325298]

/-- Eight-word compression state. -/
structure H8 where
  a : Nat
  b : Nat
  c : Nat
  d : Nat
  e : Nat
  f : Nat
  g : Nat
  h : Nat
deriving DecidableEq, Repr

/-- The initial SHA-256 hash state of FIPS 180-4 (decimal). -/
def initH : H8 :=
  ⟨1779033703, 3144134277, 1013904242, 2773480762, 1359893119, 2600822924, 528734635, 1541459225⟩

def nthW (l : List Nat) (i : Nat) : Nat := l.getD i 0

/-- One message-schedule extension step: append `W[t]` for `t = w.length`. -/
def wstep (w : List Nat) : List Nat :=
  let t := w.length
  w ++ [wadd (wadd (ssig1 (nthW w (t - 2))) (nthW w (t - 7)))
             (wadd (ssig0 (nthW w (t - 15))) (nthW w (t - 16)))]

def extendW : Nat → List Nat → List Nat
  | 0, w => w
  | k + 1, w => extendW k (wstep w)

/-- One of the 64 compression rounds, consuming a `(K[t], W[t])` pair. -/
def round (st : H8) (kw : Nat × Nat) : H8 :=
  let t1 := wadd st.h (wadd (bsig1 st.e) (wadd (ch st.e st.f st.g) (wadd kw.1 kw.2)))
  let t2 := wadd (bsig0 st.a) (maj st.a st.b st.c)
  ⟨wadd t1 t2, st.a, st.b, st.c, wadd st.d t1, st.e, st.f, st.g⟩

/-- Big-endian 32-bit words from the first 16 four-byte groups of a block. -/
def blockWords (block : List Nat) : List Nat :=
  (List.range 16).map (fun t =>
    (block.getD (4 * t) 0) * 16777216 + (block.getD (4 * t + 1) 0) * 65536 +
    (block.getD (4 * t + 2) 0) * 256 + block.getD (4 * t + 3) 0)

/-- Process one 64-byte block. -/
def compressBlock (st : H8) (block : List Nat) : H8 :=
  let w := extendW 48 (blockWords block)
  let fin := (K64.zip w).foldl round st
  ⟨wadd st.a fin.a, wadd st.b fin.b, wadd st.c fin.c, wadd st.d fin.d,
   wadd st.e fin.e, wadd st.f fin.f, wadd st.g fin.g, wadd st.h fin.h⟩

/-- Big-endian 8-byte encoding of a (bit-)length. -/
def len64be (n : Nat) : List Nat :=
  [n / 72057594037927936 % 256, n / 281474976710656 % 256, n / 1099511627776 % 256,
   n / 4294967296 % 256, n / 16777216 % 256, n / 65536 % 256, n / 256 % 256, n % 256]

/-- FIPS 180-4 padding: `0x80`, zeros to 56 mod 64, then the bit length. -/
def shaPad (msg : List Nat) : List Nat :=
  let len := msg.length
  msg ++ 128 :: List.replicate ((56 + 64 - (len + 1) % 64) % 64) 0 ++ len64be (8 * len)

/-- Split into 64-byte blocks.  The fuel (initially the length) makes the
recursion structural; it never runs out because each step consumes at
least one byte. -/
def chunks64Go : Nat → List Nat → List (List Nat)
  | 0, _ => []
  | _, [] => []
  | fuel + 1, x :: xs => (x :: xs).take 64 :: chunks64Go fuel ((x :: xs).drop 64)

def chunks64 (l : List Nat) : List (List Nat) := chunks64Go l.length l

def hexChar (n : Nat) : Char :=
  if n < 10 then Char.ofNat (48 + n) else Char.ofNat (87 + n)

/-- Eight lowercase hex characters of a 32-bit word, big-endian. -/
def wordHex (w : Nat) : List Char :=
  [hexChar (w / 268435456 % 16), hexChar (w / 16777216 % 16), hexChar (w / 1048576 % 16),
   hexChar (w / 65536 % 16), hexChar (w / 4096 % 16), hexChar (w / 256 % 16),
   hexChar (w / 16 % 16), hexChar (w % 16)]

/-- `hashlib.sha256(bytes).hexdigest()`. -/
def sha256hex (msg : List Nat) : String :=
  let st := (chunks64 (shaPad msg)).foldl compressBlock initH
  String.mk (wordHex st.a ++ wordHex st.b ++ wordHex st.c ++ wordHex st.d ++
             wordHex st.e ++ wordHex st.f ++ wordHex st.g ++ wordHex st.h)

/-! ### Spec-side companions for the Metadata Extractor

These two definitions follow the specification's words ("recursive flatten
of every scalar leaf value across nested objects/arrays, space-joined,
lowercased"), for comparison with the code-side `extract_metadata`. -/

mutual

/-- Spec-side: the scalar (string/number/boolean) leaves of a JSON value,
stringified, in traversal order. -/
def scalarLeaves : JsonVal → List String
  | .jobj fs => scalarLeavesFields fs
  | .jarr xs => scalarLeavesList xs
  | v => if isScalar v then [pyStr v] else []

def scalarLeavesList : List JsonVal → List String
  | [] => []
  | x :: xs => scalarLeaves x ++ scalarLeavesList xs

def scalarLeavesFields : List (String × JsonVal) → List String
  | [] => []
  | kv :: fs => scalarLeaves kv.2 ++ scalarLeavesFields fs

end

mutual

/-- A JSON value with no null leaves and no empty objects/arrays: the
fragment on which the code's `flatten` agrees with the spec's space-joined
scalar leaves. -/
def goodVal : JsonVal → Bool
  | .jobj fs => !fs.isEmpty && goodFields fs
  | .jarr xs => !xs.isEmpty && goodList xs
  | .jnull => false
  | _ => true

def goodList : List JsonVal → Bool
  | [] => true
  | x :: xs => goodVal x && goodList xs

def goodFields : List (String × JsonVal) → Bool
  | [] => true
  | kv :: fs => goodVal kv.2 && goodFields fs

end

/-! ## `main.py`: classification, sanitization, ingestion -/

/-- `guess_mime` from `main.py`: `mimetypes.guess_type` (the parameter
`guessMime`) with `None` replaced by `application/octet-stream`. -/
def guess_mime (guessMime : String → Option String) (path : String) : String :=
  match guessMime path with
  | some m => m
  | none => "application/octet-stream"

/-- `mime_to_category` from `main.py`, verbatim rule order. -/
def mime_to_category (mime path : String) : String :=
  if mime ≠ "" ∧ pyStartsWith mime "image/" then "image"
  else if mime ≠ "" ∧ pyStartsWith mime "video/" then "video"
  else if mime ≠ "" ∧ pyStartsWith mime "audio/" then "audio"
  else if mime = "application/json" then "json"
  else if mime ≠ "" ∧ pyStartsWith mime "text/" then "text"
  else if mime = "application/pdf" then "pdf"
  else
    let ext := pyLower (pathSuffix path)
    if ext = ".json" then "json"
    else if ext ∈ [".txt", ".md", ".csv", ".log", ".py", ".java", ".cpp", ".js", ".c", ".cs"]
      then "text"
    else "other"

/-- The MIME-rule half of `mime_to_category`: `some c` when a MIME rule fires. -/
def mimeCategory (mime : String) : Option String :=
  if mime ≠ "" ∧ pyStartsWith mime "image/" then some "image"
  else if mime ≠ "" ∧ pyStartsWith mime "video/" then some "video"
  else if mime ≠ "" ∧ pyStartsWith mime "audio/" then some "audio"
  else if mime = "application/json" then some "json"
  else if mime ≠ "" ∧ pyStartsWith mime "text/" then some "text"
  else if mime = "application/pdf" then some "pdf"
  else none

/-- The extension-fallback half of `mime_to_category`. -/
def extCategory (path : String) : String :=
  let ext := pyLower (pathSuffix path)
  if ext = ".json" then "json"
  else if ext ∈ [".txt", ".md", ".csv", ".log", ".py", ".java", ".cpp", ".js", ".c", ".cs"]
    then "text"
  else "other"

def isWordChar (c : Char) : Bool := c.isAlphanum || c = '_'

/-- `sanitize_filename` from `main.py` (ASCII reading of `\w`):
strip, turn path separators into `_`, drop characters outside
`[\w\-_\. ]`, turn spaces into `_`, cap at 200 characters. -/
def sanitize_filename (s : String) : String :=
  let s1 := pyStrip s
  let s2 := String.mk (s1.data.map (fun c => if c = '/' then '_' else c))
  let s3 := String.mk (s2.data.map (fun c => if c = '\\' then '_' else c))
  let s4 := String.mk (s3.data.filter (fun c => isWordChar c || c = '-' || c = '.' || c = ' '))
  let s5 := String.mk (s4.data.map (fun c => if c = ' ' then '_' else c))
  String.mk (s5.data.take 200)

/-- A filesystem entry: a regular file with its bytes, or a directory. -/
inductive FSEntry where
  | file : List Nat → FSEntry
  | dir : FSEntry
deriving DecidableEq

/-- One row of the `files` table.  Rows inserted without the JSON columns
carry `none` (SQL `NULL`) there. -/
structure FileRecord where
  rid : Nat
  original_path : String
  stored_path : String
  mime : String
  category : String
  sha256 : String
  added_at : String
  json_keys : Option String
  json_preview : Option String
  json_search_text : Option String
deriving DecidableEq, Repr

/-- The `files` table: rows in insertion order, plus the AUTOINCREMENT
counter. -/
structure DBState where
  nextId : Nat
  rows : List FileRecord
deriving DecidableEq, Repr

/-- `insert_record` from `main.py`: the six-column INSERT, JSON columns
left NULL.  Returns `lastrowid` and the new table state. -/
def insert_record (db : DBState) (original stored mime category sha now : String) :
    Nat × DBState :=
  (db.nextId,
   ⟨db.nextId + 1,
    db.rows ++ [⟨db.nextId, original, stored, mime, category, sha, now, none, none, none⟩]⟩)

/-- The tagged outcome dict of `process_and_store_file`. -/
inductive Outcome where
  | error : String → String → Outcome
  | copied : Nat → String → String → String → String → String → Outcome
deriving DecidableEq, Repr

/-- `process_and_store_file` from `main.py`.

External collaborators are parameters: `guessMime` models
`mimetypes.guess_type` (its `None` is replaced by
`application/octet-stream`, as in `guess_mime`) and `parseJson` models
`json.load` inside `JsonHandler.process_json_file` (`none` = parse
failure).  `timestamp` models `int(time.time() * 1000)` and `now` the
`datetime.utcnow().isoformat()` string.  The `shutil.copy2` call is
modelled as the always-succeeding copy of the source bytes; `folder.mkdir`
adds the category directory when absent.  `CATEGORIES.get(category, ...)`
maps each category to `storageRoot ++ "/" ++ category`. -/
def process_and_store_file
    (guessMime : String → Option String)
    (parseJson : List Nat → Option JsonVal)
    (storageRoot : String) (timestamp : Nat) (now : String)
    (fs : String → Option FSEntry) (db : DBState) (path : String) :
    Outcome × (String → Option FSEntry) × DBState :=
  match fs path with
  | some (FSEntry.file content) =>
    let mime := guess_mime guessMime path
    let category := mime_to_category mime path
    let json_meta : Option JsonMeta :=
      if category = "json" then
        match parseJson content with
        | some data => some (extract_metadata data)
        | none => none
      else none
    let folder := storageRoot ++ "/" ++ category
    let fs1 : String → Option FSEntry :=
      fun p => if p = folder ∧ fs p = none then some FSEntry.dir else fs p
    let dest_name := toString timestamp ++ "_" ++ sanitize_filename (basename path)
    let dest_path := folder ++ "/" ++ dest_name
    let sha := sha256hex content
    let fs2 : String → Option FSEntry :=
      fun p => if p = dest_path then some (FSEntry.file content) else fs1 p
    match json_meta with
    | some meta =>
      let db' : DBState :=
        ⟨db.nextId + 1,
         db.rows ++ [⟨db.nextId, path, dest_path, mime, category, sha, now,
                      some meta.json_keys, some meta.json_preview, some meta.json_search_text⟩]⟩
      (Outcome.copied db.nextId path dest_path mime category sha, fs2, db')
    | none =>
      let r := insert_record db path dest_path mime category sha now
      (Outcome.copied r.1 path dest_path mime category sha, fs2, r.2)
  | some FSEntry.dir => (Outcome.error "not_found" path, fs, db)
  | none => (Outcome.error "not_found" path, fs, db)

/-! ## `Search_UI.py`: the two-tier retrieval engine -/

/-- `strip_leading_timestamp`: `re.sub(r'^\d+_', '', name)` — remove one
leading run of digits followed by `_`, when present. -/
def strip_leading_timestamp (name : String) : String :=
  let ds := name.data.takeWhile Char.isDigit
  let rest := name.data.drop ds.length
  if ds ≠ [] ∧ rest.head? = some '_' then String.mk (rest.drop 1) else name

/-- The uniform result descriptor of both tiers.  The filesystem tier
builds no `json_preview` entry; that absence is `none`. -/
structure Descriptor where
  type : String
  source : String
  display : String
  path : String
  json_preview : Option String
deriving DecidableEq, Repr

/-- SQLite `col LIKE '%q%'` with default (ASCII case-insensitive)
semantics; `NULL` columns never match. -/
def likeCI (col : Option String) (q : String) : Bool :=
  match col with
  | none => false
  | some s => strContains (pyLower s) (pyLower q)

/-- The WHERE clause of `db_search`. -/
def dbMatch (q : String) (r : FileRecord) : Bool :=
  likeCI (some r.stored_path) q || likeCI (some r.original_path) q ||
    likeCI r.json_search_text q

/-- `ORDER BY id DESC`: most recently inserted (largest id) first. -/
def recentFirst (r1 r2 : FileRecord) : Prop := r2.rid ≤ r1.rid

instance : DecidableRel recentFirst := fun a b => Nat.decLe b.rid a.rid

instance : IsTotal FileRecord recentFirst := ⟨fun a b => Nat.le_total b.rid a.rid⟩

instance : IsTrans FileRecord recentFirst := ⟨fun _ _ _ h1 h2 => Nat.le_trans h2 h1⟩

/-- The per-row descriptor construction of `db_search` (the loop body
with `r[3] or basename(dirname(...))` and `r[4] or ""`). -/
def rowDescriptor (r : FileRecord) : Descriptor :=
  let category := if r.category = "" then basename (dirname r.stored_path) else r.category
  let filename := basename r.stored_path
  ⟨category, filename, strip_leading_timestamp filename, r.stored_path,
   some (match r.json_preview with | some s => s | none => "")⟩

/-- `db_search` from `Search_UI.py`: the SELECT with three LIKE
alternatives, `ORDER BY id DESC LIMIT 500`, then the descriptor mapping.
The caller (`retrieve_data`) handles the missing-database case. -/
def db_search (q : String) (db : DBState) : List Descriptor :=
  (((List.insertionSort recentFirst (db.rows.filter (dbMatch q))).take 500).map rowDescriptor)

/-- A directory of the storage tree: name, regular files, subdirectories. -/
inductive DirTree where
  | node : String → List String → List DirTree → DirTree

def dirFiles : DirTree → List String
  | DirTree.node _ fs _ => fs

def dirName : DirTree → String
  | DirTree.node n _ _ => n

mutual

/-- `os.walk` (top-down): the directory itself, then its subdirectories,
as `(dirpath, filenames)` pairs.  `path` is the full path of the tree. -/
def walkFrom (path : String) : DirTree → List (String × List String)
  | DirTree.node _ files subs => (path, files) :: walkSubs path subs

def walkSubs (path : String) : List DirTree → List (String × List String)
  | [] => []
  | t :: ts => walkFrom (path ++ "/" ++ dirName t) t ++ walkSubs path ts

end

/-- The text/JSON-like extension allow-list of `fs_search`. -/
def allowExtFS (filename : String) : Bool :=
  let n := pyLower filename
  pyEndsWith n ".txt" || pyEndsWith n ".json" || pyEndsWith n ".md" ||
    pyEndsWith n ".csv" || pyEndsWith n ".log" || pyEndsWith n ".py"

/-- `fs_search` from `Search_UI.py`.  `contentOf` models the
`open(...).read(200000)` call: `some txt` is a successful read,
`none` an unreadable file (the swallowed exception). -/
def fs_search (contentOf : String → Option String) (q : String)
    (rootPath : String) (tree : DirTree) (cat_filter : Option String) : List Descriptor :=
  (walkFrom rootPath tree).flatMap (fun rf =>
    let file_type := pyLower (basename rf.1)
    let skip : Bool := match cat_filter with
      | some cf => cf ≠ "" && file_type ≠ cf
      | none => false
    if skip then []
    else rf.2.filterMap (fun filename =>
      let full_path := rf.1 ++ "/" ++ filename
      let name_lower := pyLower filename
      let matches_name : Bool := (q ≠ "" && strContains name_lower q) || q == ""
      let matches_text : Bool := q ≠ "" && allowExtFS filename &&
        (match contentOf full_path with
         | some txt => strContains (pyLower txt) q
         | none => false)
      if matches_name || matches_text then
        some ⟨file_type, filename, strip_leading_timestamp filename, full_path, none⟩
      else none))

/-- Python `s.split(c, 1)`. -/
def splitOnce (s : String) (c : Char) : List String :=
  let pre := s.data.takeWhile (fun x => x ≠ c)
  if pre.length = s.data.length then [s]
  else [String.mk pre, String.mk (s.data.drop (pre.length + 1))]

/-- The query-grammar step of `retrieve_data`: trimmed query, optional
`type:` category filter (with the pattern emptied when one is taken). -/
def parseQuery (query : String) : String × Option String :=
  let q0 := pyStrip query
  if pyStartsWith (pyLower q0) "type:" then
    let parts := splitOnce q0 ':'
    if 1 < parts.length then ("", some (pyLower (pyStrip (parts.getD 1 ""))))
    else (q0, none)
  else (q0, none)

/-- `retrieve_data` from `Search_UI.py`: empty-query gate, query grammar,
index tier with category post-filter, filesystem fallback.  `db = none`
models a missing index file (`os.path.exists` false, or a connection
failure caught by the bare `except`). -/
def retrieve_data (contentOf : String → Option String) (query : String)
    (rootPath : String) (tree : DirTree) (db : Option DBState) : List Descriptor :=
  if query = "" then []
  else
    let pr := parseQuery query
    let q := pr.1
    let cat_filter := pr.2
    match db with
    | some d =>
      let db_results := db_search q d
      if db_results.isEmpty then fs_search contentOf q rootPath tree cat_filter
      else
        match cat_filter with
        | some cf =>
          if cf ≠ "" then db_results.filter (fun r => pyLower r.type = cf) else db_results
        | none => db_results
    | none => fs_search contentOf q rootPath tree cat_filter

/-! ## `Creating_Storage.setup_user_storage` and `main.upgrade_db` -/

/-- A SQLite database file: whether the `files` table exists, its columns,
and its rows (opaque cell payloads, `none` = SQL NULL). -/
structure SqliteDB where
  hasFilesTable : Bool
  cols : List String
  rows : List (List (Option String))
deriving DecidableEq, Repr

/-- The ten columns of the `files` table as `Creating_Storage.py` creates
it. -/
def filesColumns : List String :=
  ["id", "original_path", "stored_path", "mime", "category", "sha256", "added_at",
   "json_keys", "json_preview", "json_search_text"]

/-- `sqlite3.connect`: opens the existing database file, or creates an
empty one. -/
def connectDB : Option SqliteDB → SqliteDB
  | some d => d
  | none => ⟨false, [], []⟩

/-- `CREATE TABLE IF NOT EXISTS files (...)` with the ten columns. -/
def createFilesTable (db : SqliteDB) : SqliteDB :=
  if db.hasFilesTable then db else ⟨true, filesColumns, []⟩

/-- The machine's visible state: directories that exist, and database
files by path. -/
structure World where
  dirs : List String
  dbs : String → Option SqliteDB

/-- `Path.mkdir(parents=True, exist_ok=True)`: create when absent, silent
otherwise. -/
def mkdirP (dirs : List String) (d : String) : List String :=
  if d ∈ dirs then dirs else dirs ++ [d]

/-- The 7 fixed categories, in the order `Creating_Storage.py` lists
them. -/
def categoriesList : List String :=
  ["image", "video", "json", "text", "audio", "pdf", "other"]

/-- `setup_user_storage` from `Creating_Storage.py`.  `cwd` models
`Path.cwd()`.  Returns the `(storage_root, db_path)` pair and the updated
world. -/
def setup_user_storage (cwd username : String) (w : World) : (String × String) × World :=
  let storage_root := cwd ++ "/" ++ username ++ "_folder"
  let db_path := cwd ++ "/" ++ username ++ "_database.sqllite"
  let dirs1 := mkdirP w.dirs storage_root
  let dirs2 := categoriesList.foldl (fun ds c => mkdirP ds (storage_root ++ "/" ++ c)) dirs1
  let db := createFilesTable (connectDB (w.dbs db_path))
  ((storage_root, db_path),
   ⟨dirs2, fun p => if p = db_path then some db else w.dbs p⟩)

/-- One `ALTER TABLE files ADD COLUMN c TEXT` wrapped in `try/except
pass`: a duplicate column raises, and the exception is swallowed with the
table untouched.  A genuinely new column extends the schema and every
existing row reads NULL there. -/
def addColumnTry (db : SqliteDB) (c : String) : SqliteDB :=
  if c ∈ db.cols then db
  else ⟨db.hasFilesTable, db.cols ++ [c], db.rows.map (fun r => r ++ [none])⟩

/-- `upgrade_db` from `main.py`: the three guarded column additions. -/
def upgrade_db (db : SqliteDB) : SqliteDB :=
  addColumnTry (addColumnTry (addColumnTry db "json_keys") "json_preview") "json_search_text"

/-! ## Concrete values and small predicates used by the theorems -/

/-- Lowercase hexadecimal alphabet membership. -/
def isHexChar (c : Char) : Bool := c.isDigit || ('a' ≤ c && c ≤ 'f')

/-- The specification's JSON scenario input
`{"name":"Ann","age":30,"tags":["x","y"]}`. -/
def exampleJson : JsonVal :=
  .jobj [("name", .jstr "Ann"), ("age", .jint 30), ("tags", .jarr [.jstr "x", .jstr "y"])]

/-- A JSON object with an empty nested object next to a scalar field. -/
def badJson : JsonVal := .jobj [("a", .jobj []), ("b", .jint 1)]

/-- A storage tree whose `text` directory holds 501 files that all match
the query `"f"`. -/
def bigTree : DirTree :=
  DirTree.node "admin_folder" []
    [DirTree.node "text" ((List.range 501).map (fun i => "f" ++ toString i ++ ".bin")) []]

/-! ## Helper lemmas -/

theorem joinWith_cons_ne (sep x : String) (l : List String) (h : l ≠ []) :
    joinWith sep (x :: l) = x ++ sep ++ joinWith sep l := by
  cases l with
  | nil => exact absurd rfl h
  | cons y ys => rfl

theorem joinSp_append : ∀ xs ys : List String, xs ≠ [] → ys ≠ [] →
    joinSp (xs ++ ys) = joinSp xs ++ " " ++ joinSp ys
  | [], _, hx, _ => absurd rfl hx
  | [x], ys, _, hy => by
    simp only [joinSp, List.singleton_append]
    rw [joinWith_cons_ne _ _ _ hy]
    rfl
  | x :: y :: xs, ys, _, hy => by
    have ih := joinSp_append (y :: xs) ys (by simp) hy
    simp only [joinSp, List.cons_append] at ih ⊢
    rw [joinWith_cons_ne " " x (y :: (xs ++ ys)) (by simp),
        joinWith_cons_ne " " x (y :: xs) (by simp), ih]
    simp [String.append_assoc]

theorem hexChar_isHex : ∀ k, k < 16 → isHexChar (hexChar k) = true := by decide

theorem wordHex_all_hex (w : Nat) : ∀ c ∈ wordHex w, isHexChar c = true := by
  intro c hc
  simp only [wordHex, List.mem_cons, List.not_mem_nil, or_false] at hc
  rcases hc with h | h | h | h | h | h | h | h <;> subst h <;>
    exact hexChar_isHex _ (Nat.mod_lt _ (by norm_num))

theorem sha256hex_length (msg : List Nat) : (sha256hex msg).length = 64 := by
  simp [sha256hex, wordHex, String.length]

theorem sha256hex_all_hex (msg : List Nat) :
    ∀ c ∈ (sha256hex msg).data, isHexChar c = true := by
  intro c hc
  simp only [sha256hex, String.data, List.mem_append] at hc
  rcases hc with ((((((h | h) | h) | h) | h) | h) | h) | h <;> exact wordHex_all_hex _ c h

set_option maxRecDepth 4000 in
/-- FIPS 180-4 test vector: SHA-256 of the empty message. -/
theorem sha256hex_empty_vector :
    sha256hex [] = "e3b0c44298fc1c149afbf4c8996fb92427ae41e4649b934ca495991b7852b855" := by
  decide

set_option maxRecDepth 4000 in
/-- FIPS 180-4 test vector: SHA-256 of `"abc"`. -/
theorem sha256hex_abc_vector :
    sha256hex [97, 98, 99] =
      "ba7816bf8f01cfea414140de5dae2223b00361a396177a9cb410ff61f20015ad" := by
  decide

theorem mem_mkdirP_self (ds : List String) (d : String) : d ∈ mkdirP ds d := by
  unfold mkdirP
  split
  · assumption
  · simp

theorem mem_mkdirP_of_mem (ds : List String) (d x : String) (h : x ∈ ds) : x ∈ mkdirP ds d := by
  unfold mkdirP
  split
  · exact h
  · simp [h]

theorem mkdirP_eq_of_mem (ds : List String) (d : String) (h : d ∈ ds) : mkdirP ds d = ds := by
  simp [mkdirP, h]

theorem nodup_mkdirP (ds : List String) (d : String) (h : ds.Nodup) : (mkdirP ds d).Nodup := by
  unfold mkdirP
  split
  · exact h
  · next hd => simp [List.nodup_append, h, hd]

theorem mem_foldl_mkdirP_of_mem (f : String → String) :
    ∀ (cats ds : List String) (x : String), x ∈ ds →
      x ∈ List.foldl (fun ds c => mkdirP ds (f c)) ds cats
  | [], _, _, h => h
  | _ :: cs, ds, x, h => mem_foldl_mkdirP_of_mem f cs _ x (mem_mkdirP_of_mem ds _ x h)

theorem mem_foldl_mkdirP_self (f : String → String) :
    ∀ (cats ds : List String) (c : String), c ∈ cats →
      f c ∈ List.foldl (fun ds c => mkdirP ds (f c)) ds cats
  | c0 :: cs, ds, c, h => by
    rcases List.mem_cons.mp h with h | h
    · subst h
      exact mem_foldl_mkdirP_of_mem f cs _ _ (mem_mkdirP_self ds (f c))
    · exact mem_foldl_mkdirP_self f cs _ c h

theorem foldl_mkdirP_idem (f : String → String) :
    ∀ (cats ds : List String), (∀ c ∈ cats, f c ∈ ds) →
      List.foldl (fun ds c => mkdirP ds (f c)) ds cats = ds
  | [], _, _ => rfl
  | c :: cs, ds, h => by
    rw [List.foldl_cons, mkdirP_eq_of_mem ds (f c) (h c (by simp))]
    exact foldl_mkdirP_idem f cs ds (fun x hx => h x (by simp [hx]))

theorem nodup_foldl_mkdirP (f : String → String) :
    ∀ (cats ds : List String), ds.Nodup →
      (List.foldl (fun ds c => mkdirP ds (f c)) ds cats).Nodup
  | [], _, h => h
  | c :: cs, ds, h => nodup_foldl_mkdirP f cs _ (nodup_mkdirP ds (f c) h)

theorem setup_fst (cwd username : String) (w : World) :
    (setup_user_storage cwd username w).1 =
      (cwd ++ "/" ++ username ++ "_folder", cwd ++ "/" ++ username ++ "_database.sqllite") := rfl

theorem setup_dirs (cwd username : String) (w : World) :
    (setup_user_storage cwd username w).2.dirs =
      List.foldl (fun ds c => mkdirP ds (cwd ++ "/" ++ username ++ "_folder" ++ "/" ++ c))
        (mkdirP w.dirs (cwd ++ "/" ++ username ++ "_folder")) categoriesList := by
  simp only [setup_user_storage]

theorem setup_dbs (cwd username : String) (w : World) :
    (setup_user_storage cwd username w).2.dbs =
      fun p => if p = cwd ++ "/" ++ username ++ "_database.sqllite" then
          some (createFilesTable (connectDB
            (w.dbs (cwd ++ "/" ++ username ++ "_database.sqllite"))))
        else w.dbs p := by
  simp only [setup_user_storage]

theorem connectDB_some (d : SqliteDB) : connectDB (some d) = d := rfl

/-- Re-running the directory-creation sequence over its own output changes
nothing. -/
theorem dirs_refold (root : String) (ds : List String) :
    List.foldl (fun l c => mkdirP l (root ++ "/" ++ c))
      (mkdirP (List.foldl (fun l c => mkdirP l (root ++ "/" ++ c)) (mkdirP ds root)
        categoriesList) root) categoriesList =
    List.foldl (fun l c => mkdirP l (root ++ "/" ++ c)) (mkdirP ds root) categoriesList := by
  have hroot : root ∈
      List.foldl (fun l c => mkdirP l (root ++ "/" ++ c)) (mkdirP ds root) categoriesList :=
    mem_foldl_mkdirP_of_mem (fun c => root ++ "/" ++ c) categoriesList _ root
      (mem_mkdirP_self ds root)
  rw [mkdirP_eq_of_mem _ _ hroot]
  exact foldl_mkdirP_idem (fun c => root ++ "/" ++ c) categoriesList _
    (fun c hc => mem_foldl_mkdirP_self (fun c => root ++ "/" ++ c) categoriesList _ c hc)

theorem createFilesTable_hasTable (d : SqliteDB) : (createFilesTable d).hasFilesTable = true := by
  unfold createFilesTable
  split
  · assumption
  · rfl

theorem createFilesTable_of_hasTable (d : SqliteDB) (h : d.hasFilesTable = true) :
    createFilesTable d = d := by
  simp [createFilesTable, h]

theorem createFilesTable_idem (d : SqliteDB) :
    createFilesTable (createFilesTable d) = createFilesTable d :=
  createFilesTable_of_hasTable _ (createFilesTable_hasTable d)

theorem previewLoop_eq : ∀ (l acc : List (String × JsonVal)), acc.length < 5 →
    previewLoop l acc = acc ++ (l.filter (fun kv => isScalar kv.2)).take (5 - acc.length)
  | [], acc, _ => by simp [previewLoop]
  | kv :: rest, acc, h => by
    by_cases hs : isScalar kv.2
    · by_cases h5 : 5 ≤ (acc ++ [kv]).length
      · have hlen : acc.length = 4 := by simp at h5 ⊢; omega
        have htake : 5 - acc.length = 1 := by omega
        simp only [previewLoop, hs, if_pos, if_true, h5, List.filter_cons, htake]
        simp [hs, List.take_succ_cons, hlen]
      · have hrec := previewLoop_eq rest (acc ++ [kv]) (by simp at h5 ⊢; omega)
        have hstep : 5 - acc.length = (5 - (acc ++ [kv]).length) + 1 := by
          simp at h5 ⊢; omega
        simp only [previewLoop, hs, if_true, h5, if_false, hrec, List.filter_cons]
        simp [hs, hstep, List.take_succ_cons]
    · have h5 : ¬ 5 ≤ acc.length := by omega
      have hrec := previewLoop_eq rest acc h
      simp [previewLoop, hs, h5, hrec, List.filter_cons]

theorem flattenList_ne_nil (x : JsonVal) (xs : List JsonVal) :
    flattenList (x :: xs) ≠ [] := by
  simp [flattenList]

theorem flattenFields_ne_nil (kv : String × JsonVal) (fs : List (String × JsonVal)) :
    flattenFields (kv :: fs) ≠ [] := by
  simp [flattenFields]

mutual

theorem flatten_good : ∀ v : JsonVal, goodVal v = true →
    scalarLeaves v ≠ [] ∧ flatten v = joinSp (scalarLeaves v)
  | .jnull, h => by simp [goodVal] at h
  | .jbool b, _ => by
    cases b <;> exact ⟨by simp [scalarLeaves, isScalar], by simp [flatten, scalarLeaves, isScalar, joinSp, joinWith]⟩
  | .jint n, _ => ⟨by simp [scalarLeaves, isScalar], by simp [flatten, scalarLeaves, isScalar, joinSp, joinWith]⟩
  | .jstr s, _ => ⟨by simp [scalarLeaves, isScalar], by simp [flatten, scalarLeaves, isScalar, joinSp, joinWith]⟩
  | .jarr xs, h => by
    rw [show goodVal (.jarr xs) = (!xs.isEmpty && goodList xs) from rfl, Bool.and_eq_true] at h
    have hx : xs ≠ [] := by
      intro hc
      rw [hc] at h
      simp at h
    obtain ⟨h1, h2⟩ := flatten_goodList xs h.2 hx
    exact ⟨by simpa [scalarLeaves] using h1, by simpa [flatten, scalarLeaves] using h2⟩
  | .jobj fs, h => by
    rw [show goodVal (.jobj fs) = (!fs.isEmpty && goodFields fs) from rfl, Bool.and_eq_true] at h
    have hx : fs ≠ [] := by
      intro hc
      rw [hc] at h
      simp at h
    obtain ⟨h1, h2⟩ := flatten_goodFields fs h.2 hx
    exact ⟨by simpa [scalarLeaves] using h1, by simpa [flatten, scalarLeaves] using h2⟩

theorem flatten_goodList : ∀ xs : List JsonVal, goodList xs = true → xs ≠ [] →
    scalarLeavesList xs ≠ [] ∧ joinSp (flattenList xs) = joinSp (scalarLeavesList xs)
  | [], _, hne => absurd rfl hne
  | [x], h, _ => by
    rw [show goodList [x] = (goodVal x && goodList []) from rfl, Bool.and_eq_true] at h
    obtain ⟨h1, h2⟩ := flatten_good x h.1
    refine ⟨by simpa [scalarLeavesList] using h1, ?_⟩
    show joinSp [flatten x] = joinSp (scalarLeaves x ++ scalarLeavesList [])
    simp only [scalarLeavesList, List.append_nil, joinSp, joinWith]
    exact h2
  | x :: y :: xs, h, _ => by
    rw [show goodList (x :: y :: xs) = (goodVal x && goodList (y :: xs)) from rfl,
      Bool.and_eq_true] at h
    obtain ⟨h1, h2⟩ := flatten_good x h.1
    obtain ⟨h3, h4⟩ := flatten_goodList (y :: xs) h.2 (by simp)
    refine ⟨?_, ?_⟩
    · show scalarLeaves x ++ scalarLeavesList (y :: xs) ≠ []
      intro hc
      exact h3 (List.append_eq_nil.mp hc).2
    show joinSp (flatten x :: flattenList (y :: xs)) =
      joinSp (scalarLeaves x ++ scalarLeavesList (y :: xs))
    rw [joinSp, joinWith_cons_ne " " _ _ (flattenList_ne_nil y xs),
      joinSp_append _ _ h1 h3, h2, ← h4]
    rfl

theorem flatten_goodFields : ∀ fl : List (String × JsonVal), goodFields fl = true → fl ≠ [] →
    scalarLeavesFields fl ≠ [] ∧ joinSp (flattenFields fl) = joinSp (scalarLeavesFields fl)
  | [], _, hne => absurd rfl hne
  | [kv], h, _ => by
    rw [show goodFields [kv] = (goodVal kv.2 && goodFields []) from rfl, Bool.and_eq_true] at h
    obtain ⟨h1, h2⟩ := flatten_good kv.2 h.1
    refine ⟨by simpa [scalarLeavesFields] using h1, ?_⟩
    show joinSp [flatten kv.2] = joinSp (scalarLeaves kv.2 ++ scalarLeavesFields [])
    simp only [scalarLeavesFields, List.append_nil, joinSp, joinWith]
    exact h2
  | kv :: kw :: fs, h, _ => by
    rw [show goodFields (kv :: kw :: fs) = (goodVal kv.2 && goodFields (kw :: fs)) from rfl,
      Bool.and_eq_true] at h
    obtain ⟨h1, h2⟩ := flatten_good kv.2 h.1
    obtain ⟨h3, h4⟩ := flatten_goodFields (kw :: fs) h.2 (by simp)
    refine ⟨?_, ?_⟩
    · show scalarLeaves kv.2 ++ scalarLeavesFields (kw :: fs) ≠ []
      intro hc
      exact h3 (List.append_eq_nil.mp hc).2
    show joinSp (flatten kv.2 :: flattenFields (kw :: fs)) =
      joinSp (scalarLeaves kv.2 ++ scalarLeavesFields (kw :: fs))
    rw [joinSp, joinWith_cons_ne " " _ _ (flattenFields_ne_nil kw fs),
      joinSp_append _ _ h1 h3, h2, ← h4]
    rfl

end

/-! ## Claim theorems -/

/-- C2 as stated is false at `{"a": {}, "b": 1}`: the code's `flatten`
joins the flattening of the empty object (an empty string) into the
search text, so `json_search_text` is `" 1"` while the space-join of the
scalar leaves, lowercased, is `"1"`. -/
theorem extract_metadata_counterexample :
    (extract_metadata badJson).json_search_text ≠
      pyLower (joinSp (scalarLeaves badJson)) := by decide

/-- C2 (amended): for every JSON object, `json_keys` is the comma-join of
the top-level keys in order; `json_preview` is the serialization of the
first at-most-5 top-level scalar fields, empty when none exist; and
`json_search_text` equals the lowercased space-join of the scalar leaves
whenever the object has no null leaves and no empty objects/arrays (null
leaves additionally contribute `"none"`, and empty containers contribute
empty join components).  The specification's scenario holds exactly. -/
theorem extract_metadata_characterization :
    (∀ fields, (extract_metadata (.jobj fields)).json_keys =
      joinWith "," (fields.map Prod.fst)) ∧
    (∀ fields, (extract_metadata (.jobj fields)).json_preview =
      (if (fields.filter (fun kv => isScalar kv.2)).isEmpty then ""
       else dumps ((fields.filter (fun kv => isScalar kv.2)).take 5))) ∧
    (∀ fields, goodVal (.jobj fields) = true →
      (extract_metadata (.jobj fields)).json_search_text =
        pyLower (joinSp (scalarLeaves (.jobj fields)))) ∧
    extract_metadata exampleJson =
      ⟨"name,age,tags", "\x7b\"name\": \"Ann\", \"age\": 30\x7d", "ann 30 x y"⟩ := by
  refine ⟨fun fields => rfl, ?_, ?_, by decide⟩
  · intro fields
    show (if (previewLoop fields []).isEmpty then "" else dumps (previewLoop fields [])) = _
    rw [previewLoop_eq fields [] (by simp)]
    simp only [List.nil_append, Nat.sub_zero]
    cases hfil : fields.filter (fun kv => isScalar kv.2) with
    | nil => simp
    | cons a as => simp
  · intro fields h
    show pyLower (flatten (.jobj fields)) = _
    rw [(flatten_good _ h).2]

/-- Witness for C2 (amended): the search-text clause applied to the
specification's scenario object, whose hypothesis holds concretely. -/
theorem extract_metadata_characterization_witness :
    goodVal exampleJson = true ∧
    (extract_metadata exampleJson).json_search_text =
      pyLower (joinSp (scalarLeaves exampleJson)) :=
  ⟨by decide,
   extract_metadata_characterization.2.2.1
     [("name", .jstr "Ann"), ("age", .jint 30), ("tags", .jarr [.jstr "x", .jstr "y"])]
     (by decide)⟩

/-- C10: for the empty-string query, `retrieve_data` returns the empty
result list for every filesystem and database state — neither tier is
consulted. -/
theorem empty_query_returns_nothing :
    ∀ (contentOf : String → Option String) (rootPath : String) (tree : DirTree)
      (db : Option DBState),
      retrieve_data contentOf "" rootPath tree db = [] := by
  intro contentOf rootPath tree db
  simp [retrieve_data]

/-- C7: when the path does not exist, or exists but is not a regular file,
`process_and_store_file` returns the `not_found` error outcome and leaves
both the filesystem and the database untouched. -/
theorem ingest_missing_path_is_noop
    (guessMime : String → Option String) (parseJson : List Nat → Option JsonVal)
    (storageRoot : String) (timestamp : Nat) (now : String)
    (fs : String → Option FSEntry) (db : DBState) (path : String)
    (h : fs path = none ∨ fs path = some FSEntry.dir) :
    process_and_store_file guessMime parseJson storageRoot timestamp now fs db path =
      (Outcome.error "not_found" path, fs, db) := by
  rcases h with h | h <;> simp [process_and_store_file, h]

/-- Witness for C7: ingesting a path absent from a concrete filesystem
yields the `not_found` outcome and changes nothing. -/
theorem ingest_missing_path_is_noop_witness :
    process_and_store_file (fun _ => none) (fun _ => none) "/root" 0 "t"
        (fun _ => none) ⟨1, []⟩ "/no/such/file" =
      (Outcome.error "not_found" "/no/such/file", (fun _ => none), ⟨1, []⟩) :=
  ingest_missing_path_is_noop (fun _ => none) (fun _ => none) "/root" 0 "t"
    (fun _ => none) ⟨1, []⟩ "/no/such/file" (Or.inl rfl)

/-- C3: `mime_to_category` is total onto the 7 fixed categories: it always
splits as the MIME rule applied strictly before the extension fallback,
every result is one of the 7 categories, and each category is attained. -/
theorem classify_total_onto_with_precedence :
    (∀ mime path, mime_to_category mime path = (mimeCategory mime).getD (extCategory path)) ∧
    (∀ mime path,
      mime_to_category mime path ∈ ["image", "video", "json", "text", "audio", "pdf", "other"]) ∧
    (∃ m p, mime_to_category m p = "image") ∧ (∃ m p, mime_to_category m p = "video") ∧
    (∃ m p, mime_to_category m p = "json") ∧ (∃ m p, mime_to_category m p = "text") ∧
    (∃ m p, mime_to_category m p = "audio") ∧ (∃ m p, mime_to_category m p = "pdf") ∧
    (∃ m p, mime_to_category m p = "other") := by
  refine ⟨?_, ?_, ⟨"image/png", "x", by decide⟩, ⟨"video/mp4", "x", by decide⟩,
    ⟨"application/json", "x", by decide⟩, ⟨"text/plain", "x", by decide⟩,
    ⟨"audio/mp3", "x", by decide⟩, ⟨"application/pdf", "x", by decide⟩,
    ⟨"application/zip", "x", by decide⟩⟩
  · intro mime path
    simp only [mime_to_category, mimeCategory, extCategory]
    repeat' split
    all_goals simp_all
  · intro mime path
    simp only [mime_to_category]
    repeat' split
    all_goals simp

/-- C9: provisioning is idempotent — a second `setup_user_storage` for the
same user returns the same `(root, index)` pair and changes nothing;
provisioning never duplicates directories; the root and all 7 category
subdirectories exist afterwards; and `upgrade_db` on a store that already
has the three JSON columns is the identity. -/
theorem provisioning_idempotent :
    (∀ cwd username (w : World),
      (setup_user_storage cwd username (setup_user_storage cwd username w).2).1 =
        (setup_user_storage cwd username w).1 ∧
      (setup_user_storage cwd username (setup_user_storage cwd username w).2).2.dirs =
        (setup_user_storage cwd username w).2.dirs ∧
      (∀ p, (setup_user_storage cwd username (setup_user_storage cwd username w).2).2.dbs p =
        (setup_user_storage cwd username w).2.dbs p)) ∧
    (∀ cwd username (w : World), w.dirs.Nodup →
      (setup_user_storage cwd username w).2.dirs.Nodup) ∧
    (∀ cwd username (w : World),
      (setup_user_storage cwd username w).1.1 ∈ (setup_user_storage cwd username w).2.dirs ∧
      ∀ c ∈ categoriesList,
        ((setup_user_storage cwd username w).1.1 ++ "/" ++ c) ∈
          (setup_user_storage cwd username w).2.dirs) ∧
    (∀ db : SqliteDB, "json_keys" ∈ db.cols → "json_preview" ∈ db.cols →
      "json_search_text" ∈ db.cols → upgrade_db db = db) := by
  refine ⟨?_, ?_, ?_, ?_⟩
  · intro cwd username w
    refine ⟨by rw [setup_fst, setup_fst], ?_, ?_⟩
    · rw [setup_dirs, setup_dirs]
      exact dirs_refold (cwd ++ "/" ++ username ++ "_folder") w.dirs
    · intro p
      simp only [setup_dbs]
      by_cases hp : p = cwd ++ "/" ++ username ++ "_database.sqllite"
      · simp [hp, connectDB_some, createFilesTable_idem]
      · simp only [if_neg hp]
  · intro cwd username w h
    rw [setup_dirs]
    exact nodup_foldl_mkdirP (fun c => cwd ++ "/" ++ username ++ "_folder" ++ "/" ++ c)
      categoriesList _ (nodup_mkdirP _ _ h)
  · intro cwd username w
    refine ⟨?_, ?_⟩
    · simp only [setup_fst, setup_dirs]
      exact mem_foldl_mkdirP_of_mem (fun c => cwd ++ "/" ++ username ++ "_folder" ++ "/" ++ c)
        categoriesList _ _ (mem_mkdirP_self _ _)
    · intro c hc
      simp only [setup_fst, setup_dirs]
      exact mem_foldl_mkdirP_self (fun c => cwd ++ "/" ++ username ++ "_folder" ++ "/" ++ c)
        categoriesList _ c hc
  · intro db h1 h2 h3
    simp [upgrade_db, addColumnTry, h1, h2, h3]

theorem copy_keeps_source (dest folder p : String) (fs : String → Option FSEntry)
    (content : List Nat) (h : fs p = some (FSEntry.file content)) :
    (if p = dest then some (FSEntry.file content)
     else if p = folder ∧ fs p = none then some FSEntry.dir else fs p) =
      some (FSEntry.file content) := by
  split
  · rfl
  · simp [h]

/-- C4: for every existing regular file, a successful ingest copies rather
than moves — afterwards the stored path holds exactly the source bytes,
the source file is untouched, and the recorded digest is the
64-lowercase-hex SHA-256 of the bytes at the stored path. -/
theorem ingest_copies_and_fingerprints
    (guessMime : String → Option String) (parseJson : List Nat → Option JsonVal)
    (storageRoot : String) (timestamp : Nat) (now : String)
    (fs : String → Option FSEntry) (db : DBState) (path : String) (content : List Nat)
    (h : fs path = some (FSEntry.file content)) :
    ∃ rid stored mime cat,
      (process_and_store_file guessMime parseJson storageRoot timestamp now fs db path).1 =
        Outcome.copied rid path stored mime cat (sha256hex content) ∧
      (process_and_store_file guessMime parseJson storageRoot timestamp now fs db path).2.1
        stored = some (FSEntry.file content) ∧
      (process_and_store_file guessMime parseJson storageRoot timestamp now fs db path).2.1
        path = some (FSEntry.file content) ∧
      (sha256hex content).length = 64 ∧
      (∀ c ∈ (sha256hex content).data, isHexChar c = true) := by
  simp only [process_and_store_file, h]
  split
  · exact ⟨_, _, _, _, rfl, by simp, copy_keeps_source _ _ path fs content h,
      sha256hex_length content, sha256hex_all_hex content⟩
  · exact ⟨_, _, _, _, rfl, by simp, copy_keeps_source _ _ path fs content h,
      sha256hex_length content, sha256hex_all_hex content⟩

/-- Witness for C4: ingesting a concrete two-byte file from a concrete
filesystem. -/
theorem ingest_copies_and_fingerprints_witness :
    ∃ rid stored mime cat,
      (process_and_store_file (fun _ => none) (fun _ => none) "/home/u/admin_folder" 99 "t"
        (fun p => if p = "/a.txt" then some (FSEntry.file [104, 105]) else none)
        ⟨1, []⟩ "/a.txt").1 =
        Outcome.copied rid "/a.txt" stored mime cat (sha256hex [104, 105]) ∧
      (process_and_store_file (fun _ => none) (fun _ => none) "/home/u/admin_folder" 99 "t"
        (fun p => if p = "/a.txt" then some (FSEntry.file [104, 105]) else none)
        ⟨1, []⟩ "/a.txt").2.1 stored = some (FSEntry.file [104, 105]) ∧
      (process_and_store_file (fun _ => none) (fun _ => none) "/home/u/admin_folder" 99 "t"
        (fun p => if p = "/a.txt" then some (FSEntry.file [104, 105]) else none)
        ⟨1, []⟩ "/a.txt").2.1 "/a.txt" = some (FSEntry.file [104, 105]) ∧
      (sha256hex [104, 105]).length = 64 ∧
      (∀ c ∈ (sha256hex [104, 105]).data, isHexChar c = true) :=
  ingest_copies_and_fingerprints (fun _ => none) (fun _ => none) "/home/u/admin_folder" 99 "t"
    (fun p => if p = "/a.txt" then some (FSEntry.file [104, 105]) else none)
    ⟨1, []⟩ "/a.txt" [104, 105] (by simp)

/-- C8: a file classified as `json` whose content fails to parse is still
copied and recorded: the outcome is `copied`, the stored path holds the
source bytes, and exactly one record is appended whose three JSON metadata
columns are all NULL (empty). -/
theorem json_parse_failure_nonfatal
    (guessMime : String → Option String) (parseJson : List Nat → Option JsonVal)
    (storageRoot : String) (timestamp : Nat) (now : String)
    (fs : String → Option FSEntry) (db : DBState) (path : String) (content : List Nat)
    (h1 : fs path = some (FSEntry.file content))
    (h2 : mime_to_category (guess_mime guessMime path) path = "json")
    (h3 : parseJson content = none) :
    ∃ stored, ∃ rec : FileRecord,
      (process_and_store_file guessMime parseJson storageRoot timestamp now fs db path).1 =
        Outcome.copied db.nextId path stored (guess_mime guessMime path) "json"
          (sha256hex content) ∧
      (process_and_store_file guessMime parseJson storageRoot timestamp now fs db path).2.1
        stored = some (FSEntry.file content) ∧
      (process_and_store_file guessMime parseJson storageRoot timestamp now fs db path).2.2.rows =
        db.rows ++ [rec] ∧
      rec.json_keys = none ∧ rec.json_preview = none ∧ rec.json_search_text = none := by
  simp only [process_and_store_file, h1, h2, h3, if_pos, insert_record]
  exact ⟨_, _, rfl, by simp, rfl, rfl, rfl, rfl⟩

/-- Witness for C8: a concrete unparseable `.json` file is copied with NULL
JSON columns. -/
theorem json_parse_failure_nonfatal_witness :
    ∃ stored, ∃ rec : FileRecord,
      (process_and_store_file (fun _ => none) (fun _ => none) "/home/u/admin_folder" 7 "t"
        (fun p => if p = "/a.json" then some (FSEntry.file [123]) else none)
        ⟨4, []⟩ "/a.json").1 =
        Outcome.copied 4 "/a.json" stored (guess_mime (fun _ => none) "/a.json") "json"
          (sha256hex [123]) ∧
      (process_and_store_file (fun _ => none) (fun _ => none) "/home/u/admin_folder" 7 "t"
        (fun p => if p = "/a.json" then some (FSEntry.file [123]) else none)
        ⟨4, []⟩ "/a.json").2.1 stored = some (FSEntry.file [123]) ∧
      (process_and_store_file (fun _ => none) (fun _ => none) "/home/u/admin_folder" 7 "t"
        (fun p => if p = "/a.json" then some (FSEntry.file [123]) else none)
        ⟨4, []⟩ "/a.json").2.2.rows = ([] : List FileRecord) ++ [rec] ∧
      rec.json_keys = none ∧ rec.json_preview = none ∧ rec.json_search_text = none :=
  json_parse_failure_nonfatal (fun _ => none) (fun _ => none) "/home/u/admin_folder" 7 "t"
    (fun p => if p = "/a.json" then some (FSEntry.file [123]) else none)
    ⟨4, []⟩ "/a.json" [123] (by simp) (by decide) rfl

theorem fs_search_mem_shape (contentOf : String → Option String) (q rootPath : String)
    (tree : DirTree) (cf : Option String) :
    ∀ r ∈ fs_search contentOf q rootPath tree cf,
      ∃ dirpath files filename,
        (dirpath, files) ∈ walkFrom rootPath tree ∧ filename ∈ files ∧
        r = ⟨pyLower (basename dirpath), filename, strip_leading_timestamp filename,
             dirpath ++ "/" ++ filename, none⟩ := by
  intro r hr
  simp only [fs_search, List.mem_flatMap] at hr
  obtain ⟨rf, hrf, hr2⟩ := hr
  split at hr2
  · simp at hr2
  · simp only [List.mem_filterMap] at hr2
    obtain ⟨filename, hfn, heq⟩ := hr2
    split at heq
    · obtain rfl := Option.some.inj heq
      exact ⟨rf.1, rf.2, filename, hrf, hfn, rfl⟩
    · simp at heq

/-- C1: when the index is unavailable or the index tier yields zero
matching rows, `retrieve_data` returns exactly the filesystem tier's
results, and every such result takes its category from the file's
immediate parent directory name and carries the uniform descriptor shape
(with no precomputed preview). -/
theorem index_fallback_to_filesystem
    (contentOf : String → Option String) (query rootPath : String) (tree : DirTree)
    (db : Option DBState)
    (hq : query ≠ "")
    (hempty : ∀ d, db = some d → db_search (parseQuery query).1 d = []) :
    retrieve_data contentOf query rootPath tree db =
      fs_search contentOf (parseQuery query).1 rootPath tree (parseQuery query).2 ∧
    ∀ r ∈ fs_search contentOf (parseQuery query).1 rootPath tree (parseQuery query).2,
      ∃ dirpath files filename,
        (dirpath, files) ∈ walkFrom rootPath tree ∧ filename ∈ files ∧
        r = ⟨pyLower (basename dirpath), filename, strip_leading_timestamp filename,
             dirpath ++ "/" ++ filename, none⟩ := by
  refine ⟨?_, fs_search_mem_shape contentOf _ rootPath tree _⟩
  simp only [retrieve_data, if_neg hq]
  cases db with
  | none => rfl
  | some d => simp [hempty d rfl]

/-- Witness for C1: a concrete query against a missing index falls back to
the filesystem tier. -/
theorem index_fallback_to_filesystem_witness :
    retrieve_data (fun _ => none) "q" "/u/admin_folder"
        (DirTree.node "admin_folder" ["123_q.txt"] []) none =
      fs_search (fun _ => none) (parseQuery "q").1 "/u/admin_folder"
        (DirTree.node "admin_folder" ["123_q.txt"] []) (parseQuery "q").2 :=
  (index_fallback_to_filesystem (fun _ => none) "q" "/u/admin_folder"
    (DirTree.node "admin_folder" ["123_q.txt"] []) none (by decide)
    (fun _ h => nomatch h)).1

set_option maxRecDepth 40000 in
/-- C5 as stated is false for the filesystem tier: with the index absent
and 501 matching files on disk, `retrieve_data` returns 501 results — the
filesystem fallback applies no 500 cap. -/
theorem search_cap_counterexample :
    500 < (retrieve_data (fun _ => none) "f" "/u/admin_folder" bigTree none).length := by
  decide

/-- C5 (amended): the index tier caps results at 500 and returns them most
recent (largest id) first; the filesystem fallback tier is unbounded, in
walk order. -/
theorem db_search_capped_and_ordered :
    ∀ (q : String) (db : DBState),
      (db_search q db).length ≤ 500 ∧
      ∃ rows : List FileRecord, List.Sorted recentFirst rows ∧
        db_search q db = rows.map rowDescriptor := by
  intro q db
  refine ⟨?_, ?_⟩
  · simp only [db_search, List.length_map]
    exact List.length_take_le 500 _
  · exact ⟨(List.insertionSort recentFirst (db.rows.filter (dbMatch q))).take 500,
      List.Pairwise.sublist (List.take_sublist 500 _)
        (List.sorted_insertionSort recentFirst _),
      rfl⟩

/-- Witness for C9: a concrete double provisioning on an empty world, and a
concrete already-migrated schema. -/
theorem provisioning_idempotent_witness :
    (setup_user_storage "/home" "admin" (setup_user_storage "/home" "admin" ⟨[], fun _ => none⟩).2).1 =
      (setup_user_storage "/home" "admin" ⟨[], fun _ => none⟩).1 ∧
    (setup_user_storage "/home" "admin" ⟨[], fun _ => none⟩).2.dirs.Nodup ∧
    upgrade_db ⟨true, filesColumns, [[some "1"]]⟩ = ⟨true, filesColumns, [[some "1"]]⟩ :=
  ⟨(provisioning_idempotent.1 "/home" "admin" ⟨[], fun _ => none⟩).1,
   provisioning_idempotent.2.1 "/home" "admin" ⟨[], fun _ => none⟩ (by decide),
   provisioning_idempotent.2.2.2 ⟨true, filesColumns, [[some "1"]]⟩
     (by decide) (by decide) (by decide)⟩

theorem asciiLower_colon (c : Char) (h : asciiLower c = ':') : c = ':' := by
  unfold asciiLower at h
  by_cases hA : c = 'A'
  · rw [if_pos hA] at h
    exact absurd h (by decide)
  rw [if_neg hA] at h
  by_cases hB : c = 'B'
  · rw [if_pos hB] at h
    exact absurd h (by decide)
  rw [if_neg hB] at h
  by_cases hC : c = 'C'
  · rw [if_pos hC] at h
    exact absurd h (by decide)
  rw [if_neg hC] at h
  by_cases hD : c = 'D'
  · rw [if_pos hD] at h
    exact absurd h (by decide)
  rw [if_neg hD] at h
  by_cases hE : c = 'E'
  · rw [if_pos hE] at h
    exact absurd h (by decide)
  rw [if_neg hE] at h
  by_cases hF : c = 'F'
  · rw [if_pos hF] at h
    exact absurd h (by decide)
  rw [if_neg hF] at h
  by_cases hG : c = 'G'
  · rw [if_pos hG] at h
    exact absurd h (by decide)
  rw [if_neg hG] at h
  by_cases hH : c = 'H'
  · rw [if_pos hH] at h
    exact absurd h (by decide)
  rw [if_neg hH] at h
  by_cases hI : c = 'I'
  · rw [if_pos hI] at h
    exact absurd h (by decide)
  rw [if_neg hI] at h
  by_cases hJ : c = 'J'
  · rw [if_pos hJ] at h
    exact absurd h (by decide)
  rw [if_neg hJ] at h
  by_cases hK : c = 'K'
  · rw [if_pos hK] at h
    exact absurd h (by decide)
  rw [if_neg hK] at h
  by_cases hL : c = 'L'
  · rw [if_pos hL] at h
    exact absurd h (by decide)
  rw [if_neg hL] at h
  by_cases hM : c = 'M'
  · rw [if_pos hM] at h
    exact absurd h (by decide)
  rw [if_neg hM] at h
  by_cases hN : c = 'N'
  · rw [if_pos hN] at h
    exact absurd h (by decide)
  rw [if_neg hN] at h
  by_cases hO : c = 'O'
  · rw [if_pos hO] at h
    exact absurd h (by decide)
  rw [if_neg hO] at h
  by_cases hP : c = 'P'
  · rw [if_pos hP] at h
    exact absurd h (by decide)
  rw [if_neg hP] at h
  by_cases hQ : c = 'Q'
  · rw [if_pos hQ] at h
    exact absurd h (by decide)
  rw [if_neg hQ] at h
  by_cases hR : c = 'R'
  · rw [if_pos hR] at h
    exact absurd h (by decide)
  rw [if_neg hR] at h
  by_cases hS : c = 'S'
  · rw [if_pos hS] at h
    exact absurd h (by decide)
  rw [if_neg hS] at h
  by_cases hT : c = 'T'
  · rw [if_pos hT] at h
    exact absurd h (by decide)
  rw [if_neg hT] at h
  by_cases hU : c = 'U'
  · rw [if_pos hU] at h
    exact absurd h (by decide)
  rw [if_neg hU] at h
  by_cases hV : c = 'V'
  · rw [if_pos hV] at h
    exact absurd h (by decide)
  rw [if_neg hV] at h
  by_cases hW : c = 'W'
  · rw [if_pos hW] at h
    exact absurd h (by decide)
  rw [if_neg hW] at h
  by_cases hX : c = 'X'
  · rw [if_pos hX] at h
    exact absurd h (by decide)
  rw [if_neg hX] at h
  by_cases hY : c = 'Y'
  · rw [if_pos hY] at h
    exact absurd h (by decide)
  rw [if_neg hY] at h
  by_cases hZ : c = 'Z'
  · rw [if_pos hZ] at h
    exact absurd h (by decide)
  rw [if_neg hZ] at h
  exact h

theorem takeWhile_colon_length (l : List Char) (h : ':' ∈ l) :
    (l.takeWhile (fun x => x ≠ ':')).length ≠ l.length := by
  induction l with
  | nil => simp at h
  | cons a as ih =>
    by_cases ha : a = ':'
    · subst ha
      simp [List.takeWhile_cons]
    · have h' : ':' ∈ as := by
        rcases List.mem_cons.mp h with h0 | h0
        · exact absurd h0.symm ha
        · exact h0
      simp only [List.takeWhile_cons, ha, decide_not, List.length_cons]
      intro hc
      apply ih h'
      simpa using hc

theorem colon_mem_of_lower_starts : ∀ l : List Char,
    listStarts "type:".data (l.map asciiLower) = true → ':' ∈ l
  | [], h => by simp [listStarts] at h
  | [_], h => by simp [listStarts] at h
  | [_, _], h => by simp [listStarts] at h
  | [_, _, _], h => by simp [listStarts] at h
  | [_, _, _, _], h => by simp [listStarts] at h
  | c0 :: c1 :: c2 :: c3 :: c4 :: rest, h => by
    have h' : listStarts ['t', 'y', 'p', 'e', ':']
        (List.map asciiLower (c0 :: c1 :: c2 :: c3 :: c4 :: rest)) = true := h
    simp only [List.map_cons, listStarts, Bool.and_eq_true, decide_eq_true_eq] at h'
    have hc4 : c4 = ':' := asciiLower_colon c4 h'.2.2.2.2.1.symm
    simp [hc4]

theorem parseQuery_type (query : String)
    (h : pyStartsWith (pyLower (pyStrip query)) "type:" = true) :
    parseQuery query =
      ("", some (pyLower (pyStrip ((splitOnce (pyStrip query) ':').getD 1 "")))) := by
  have hc : ':' ∈ (pyStrip query).data :=
    colon_mem_of_lower_starts (pyStrip query).data h
  unfold parseQuery
  rw [if_pos h]
  have hsplit : 1 < (splitOnce (pyStrip query) ':').length := by
    unfold splitOnce
    rw [if_neg (takeWhile_colon_length _ hc)]
    simp
  rw [if_pos hsplit]

theorem fs_search_type (contentOf : String → Option String) (q rootPath : String)
    (tree : DirTree) (cf : String) (hcf : cf ≠ "") :
    ∀ r ∈ fs_search contentOf q rootPath tree (some cf), r.type = cf := by
  intro r hr
  simp only [fs_search, List.mem_flatMap] at hr
  obtain ⟨rf, hrf, hr2⟩ := hr
  split at hr2
  · simp at hr2
  · next hskip =>
    have hft : pyLower (basename rf.1) = cf := by
      by_contra hne
      exact hskip (by simp [hcf, hne])
    simp only [List.mem_filterMap] at hr2
    obtain ⟨fn, hfn, heq⟩ := hr2
    split at heq
    · obtain rfl := Option.some.inj heq
      exact hft
    · simp at heq

theorem db_search_mem_row (q : String) (db : DBState) :
    ∀ r ∈ db_search q db, ∃ rec ∈ db.rows, r = rowDescriptor rec := by
  intro r hr
  simp only [db_search, List.mem_map] at hr
  obtain ⟨rec, hrec, rfl⟩ := hr
  refine ⟨rec, ?_, rfl⟩
  have h1 : rec ∈ List.insertionSort recentFirst (db.rows.filter (dbMatch q)) :=
    (List.take_sublist 500 _).subset hrec
  have h2 : rec ∈ db.rows.filter (dbMatch q) :=
    (List.perm_insertionSort recentFirst (db.rows.filter (dbMatch q))).subset h1
  exact List.mem_of_mem_filter h2

theorem rowDescriptor_type (rec : FileRecord) (h : rec.category ≠ "") :
    (rowDescriptor rec).type = rec.category := by
  simp [rowDescriptor, h]

theorem categories_lower : ∀ c ∈ categoriesList, c ≠ "" ∧ pyLower c = c := by decide

/-- C6: a query whose trimmed, lowercased form starts with `type:` parses
into an empty text pattern and a mandatory category filter (the remainder,
trimmed and lowercased); and `search("type:json")` returns only
descriptors whose category is `"json"`, for every database whose records
carry one of the 7 canonical categories and for the filesystem tier
alike. -/
theorem type_query_category_filter :
    (∀ query, pyStartsWith (pyLower (pyStrip query)) "type:" = true →
      parseQuery query =
        ("", some (pyLower (pyStrip ((splitOnce (pyStrip query) ':').getD 1 ""))))) ∧
    (∀ (contentOf : String → Option String) (rootPath : String) (tree : DirTree)
       (db : Option DBState),
      (∀ d, db = some d → ∀ rec ∈ d.rows, rec.category ∈ categoriesList) →
      ∀ r ∈ retrieve_data contentOf "type:json" rootPath tree db, r.type = "json") := by
  refine ⟨parseQuery_type, ?_⟩
  intro contentOf rootPath tree db hdb r hr
  have hq : ("type:json" : String) ≠ "" := by decide
  have hparse : parseQuery "type:json" = ("", some "json") := by decide
  simp only [retrieve_data, if_neg hq, hparse] at hr
  cases db with
  | none => exact fs_search_type contentOf "" rootPath tree "json" (by decide) r hr
  | some d =>
    simp only [] at hr
    split at hr
    · exact fs_search_type contentOf "" rootPath tree "json" (by decide) r hr
    · rw [if_pos (by decide : ("json" : String) ≠ "")] at hr
      simp only [List.mem_filter, decide_eq_true_eq] at hr
      obtain ⟨hmem, htype⟩ := hr
      obtain ⟨rec, hrec, rfl⟩ := db_search_mem_row "" d r hmem
      obtain ⟨hne, hlow⟩ := categories_lower rec.category (hdb d rfl rec hrec)
      rw [rowDescriptor_type rec hne] at htype ⊢
      rw [hlow] at htype
      exact htype

/-- Witness for C6: the concrete query `type:json` parses to the `json`
filter, and a concrete search returns only `json`-category results. -/
theorem type_query_category_filter_witness :
    parseQuery "type:json" =
      ("", some (pyLower (pyStrip ((splitOnce (pyStrip "type:json") ':').getD 1 "")))) ∧
    (∀ r ∈ retrieve_data (fun _ => none) "type:json" "/u/admin_folder"
        (DirTree.node "admin_folder" [] [DirTree.node "json" ["5_a.json"] []])
        (some ⟨2, [⟨1, "/b.txt", "/u/admin_folder/text/9_b.txt", "text/plain", "text",
          "00", "t", none, none, none⟩]⟩),
      r.type = "json") :=
  ⟨type_query_category_filter.1 "type:json" (by decide),
   type_query_category_filter.2 (fun _ => none) "/u/admin_folder"
     (DirTree.node "admin_folder" [] [DirTree.node "json" ["5_a.json"] []])
     (some ⟨2, [⟨1, "/b.txt", "/u/admin_folder/text/9_b.txt", "text/plain", "text",
       "00", "t", none, none, none⟩]⟩)
     (by intro d h rec hrec; cases h; simp at hrec; rw [hrec]; decide)⟩

end AuraVerse
